import Mathlib

/-!
Verification of the PyPSA computational core against its specification.

The Python sources (components.py, pf.py, opf.py) are shallowly embedded:
dataframes become lists of records keyed by name, floating point numbers
become rationals, pandas NaN becomes `Option.none`, and in-place pandas
mutation becomes explicit state passing.  Each embedded definition mirrors
one function or code region of the source, named after it.
-/

set_option maxHeartbeats 1000000

namespace PyPSA

/-! ### Generators and slack selection (pf.py, find_slack_bus) -/

/-- A row of the generator table: the columns that slack selection touches
(components.py, class Generator: control defaults to "PQ"). -/
structure Generator where
  name : String
  control : String
  bus : String
  deriving DecidableEq, Repr

/-- Pandas `network.generators.loc[names, "control"] = c`: set the control
column of every row whose name is listed. -/
def setControl (names : List String) (c : String) (gens : List Generator) :
    List Generator :=
  gens.map fun g => if g.name ∈ names then { g with control := c } else g

/-- Pandas `gens.bus[n]`: the bus column of the row named n. -/
def busOf (gens : List Generator) (n : String) : String :=
  ((gens.find? (fun g => g.name = n)).map (fun g => g.bus)).getD ""

/-- pf.py lines 327-359, `find_slack_bus`: `gens` is the sub-network
generator table in index order, `buses` the sub-network bus index.  Returns
(slack_generator, slack_bus, generator table after control mutations);
`none` models the IndexError of `buses.index[0]` on an empty bus index. -/
def find_slack_bus (gens : List Generator) (buses : List String) :
    Option (String × String × List Generator) :=
  match gens with
  | [] =>
    match buses with
    | [] => none
    | b :: _ => some ("", b, [])
  | g0 :: gs =>
    match (g0 :: gs).filter (fun g => g.control = "Slack") with
    | [] =>
      some (g0.name, busOf (g0 :: gs) g0.name,
            setControl [g0.name] "Slack" (g0 :: gs))
    | [s] => some (s.name, busOf (g0 :: gs) s.name, g0 :: gs)
    | s :: s2 :: rest =>
      some (s.name, busOf (g0 :: gs) s.name,
            setControl ((s2 :: rest).map (fun g => g.name)) "PV" (g0 :: gs))

/-! ### Newton-Raphson (pf.py, newton_raphson_sparse) -/

/-- One Newton update, pf.py line 107:
`guess = guess - spsolve(dfdx(guess), F)` with `F = f(guess)`. -/
def nrStep {A B J : Type} [Sub A] (f : A → B) (dfdx : A → J)
    (spsolve : J → B → A) (guess : A) : A :=
  guess - spsolve (dfdx guess) (f guess)

/-- The while loop of pf.py lines 103-110: `fnorm` is the infinity norm of
the mismatch (`norm(F, np.Inf)`), `fuel` the remaining iteration budget, so
the loop guard `n_iter < lim_iter` is `fuel > 0`. -/
def nrLoop {A B J : Type} [Sub A] (f : A → B) (dfdx : A → J)
    (spsolve : J → B → A) (fnorm : B → ℚ) (x_tol : ℚ) :
    ℕ → A → ℕ → A × ℕ × ℚ
  | 0, guess, n_iter => (guess, n_iter, fnorm (f guess))
  | fuel + 1, guess, n_iter =>
    if x_tol < fnorm (f guess) then
      nrLoop f dfdx spsolve fnorm x_tol fuel
        (nrStep f dfdx spsolve guess) (n_iter + 1)
    else (guess, n_iter, fnorm (f guess))

/-- pf.py lines 89-118, `newton_raphson_sparse`: run the loop from the
initial guess with `n_iter = 0` and return (guess, n_iter, diff).  The
Python default iteration cap is `lim_iter = 100`. -/
def newton_raphson_sparse {A B J : Type} [Sub A] (f : A → B) (dfdx : A → J)
    (spsolve : J → B → A) (fnorm : B → ℚ) (x_tol : ℚ) (lim_iter : ℕ)
    (guess : A) : A × ℕ × ℚ :=
  nrLoop f dfdx spsolve fnorm x_tol lim_iter guess 0

/-! ### Per-unit calculation (pf.py, calculate_dependent_values) -/

/-- A row of the bus table: the column the per-unit calculation reads. -/
structure PBus where
  name : String
  v_nom : ℚ
  deriving DecidableEq, Repr

/-- A row of the line table: static impedances and the dependent columns the
calculation writes.  `none` models pandas NaN (a bus0 missing from the bus
index after the left merge). -/
structure PLine where
  name : String
  bus0 : String
  r : ℚ
  x : ℚ
  g : ℚ
  b : ℚ
  v_nom : Option ℚ
  x_pu : Option ℚ
  r_pu : Option ℚ
  g_pu : Option ℚ
  b_pu : Option ℚ
  deriving DecidableEq, Repr

/-- A row of the transformer table (impedances per unit of s_nom). -/
structure PTransformer where
  name : String
  r : ℚ
  x : ℚ
  g : ℚ
  b : ℚ
  s_nom : ℚ
  x_pu : ℚ
  r_pu : ℚ
  g_pu : ℚ
  b_pu : ℚ
  deriving DecidableEq, Repr

/-- A row of the shunt impedance table. -/
structure PShunt where
  name : String
  bus : String
  g : ℚ
  b : ℚ
  v_nom : Option ℚ
  g_pu : Option ℚ
  b_pu : Option ℚ
  deriving DecidableEq, Repr

/-- The tables touched by calculate_dependent_values. -/
structure PNetwork where
  buses : List PBus
  lines : List PLine
  transformers : List PTransformer
  shunt_impedances : List PShunt
  dependent_values_calculated : Bool
  deriving DecidableEq, Repr

/-- The left merge of pf.py lines 410-415: v_nom of the named bus, NaN when
the bus is not in the index. -/
def busVnom (buses : List PBus) (b : String) : Option ℚ :=
  (buses.find? (fun u => u.name = b)).map (fun u => u.v_nom)

/-- pf.py lines 402-421 restricted to one line row: refresh v_nom from bus0
and recompute the per-unit columns. -/
def lineDep (buses : List PBus) (l : PLine) : PLine :=
  let v := busVnom buses l.bus0
  { l with
    v_nom := v
    x_pu := v.map (fun vn => l.x / vn ^ 2)
    r_pu := v.map (fun vn => l.r / vn ^ 2)
    b_pu := v.map (fun vn => l.b * vn ^ 2)
    g_pu := v.map (fun vn => l.g * vn ^ 2) }

/-- pf.py lines 423-426 restricted to one transformer row. -/
def transformerDep (t : PTransformer) : PTransformer :=
  { t with
    x_pu := t.x / t.s_nom
    r_pu := t.r / t.s_nom
    b_pu := t.b * t.s_nom
    g_pu := t.g * t.s_nom }

/-- pf.py lines 402-415 and 427-428 restricted to one shunt impedance row. -/
def shuntDep (buses : List PBus) (s : PShunt) : PShunt :=
  let v := busVnom buses s.bus
  { s with
    v_nom := v
    b_pu := v.map (fun vn => s.b * vn ^ 2)
    g_pu := v.map (fun vn => s.g * vn ^ 2) }

/-- pf.py lines 398-430, `calculate_dependent_values`. -/
def calculate_dependent_values (n : PNetwork) : PNetwork :=
  { n with
    lines := n.lines.map (lineDep n.buses)
    transformers := n.transformers.map transformerDep
    shunt_impedances := n.shunt_impedances.map (shuntDep n.buses)
    dependent_values_calculated := true }

/-! ### Linear power flow on a sub-network (pf.py, sub_network_lpf)

Embedded is the part of sub_network_lpf that determines bus.p: the injection
accumulation of lines 707-717 and the slack overwrite of line 743.  The
branch-flow solve of lines 726-738 writes only line and transformer columns
and the tail of the function (lines 745-764) writes only v_ang or v_mag and
the one-port dispatch columns, so neither touches bus.p. -/

/-- A generator row as read by the lpf injection loop. -/
structure LGen where
  name : String
  bus : String
  sign : ℚ
  p_set : ℚ
  deriving DecidableEq, Repr

/-- A load row as read by the lpf injection loop. -/
structure LLoad where
  name : String
  bus : String
  sign : ℚ
  p_set : ℚ
  deriving DecidableEq, Repr

/-- A shunt impedance row as read by the lpf injection loop. -/
structure LShunt where
  name : String
  bus : String
  sign : ℚ
  g_pu : ℚ
  deriving DecidableEq, Repr

/-- A transport link or converter row with its already assigned p0, p1
(set by network_lpf, pf.py lines 312-315). -/
structure LLink where
  name : String
  bus0 : String
  bus1 : String
  p0 : ℚ
  p1 : ℚ
  deriving DecidableEq, Repr

/-- The component tables sub_network_lpf reads when filling bus.p. -/
structure LpfNetwork where
  generators : List LGen
  loads : List LLoad
  shunt_impedances : List LShunt
  links : List LLink
  deriving DecidableEq, Repr

/-- pf.py lines 707-717: the power injection written to bus.p[now] for one
bus, from attached generators, loads and shunt impedances, minus p0 of links
leaving the bus and p1 of links entering it. -/
def injection (net : LpfNetwork) (b : String) : ℚ :=
  ((net.generators.filter (fun g => g.bus = b)).map
      (fun g => g.sign * g.p_set)).sum
  + ((net.loads.filter (fun l => l.bus = b)).map
      (fun l => l.sign * l.p_set)).sum
  + ((net.shunt_impedances.filter (fun s => s.bus = b)).map
      (fun s => s.sign * s.g_pu)).sum
  - ((net.links.filter (fun t => t.bus0 = b)).map (fun t => t.p0)).sum
  - ((net.links.filter (fun t => t.bus1 = b)).map (fun t => t.p1)).sum

/-- pf.py lines 707-743: bus.p of every bus of the sub-network after
sub_network_lpf.  `buses_o` is the ordered bus index with the slack bus
first (find_bus_controls, line 394); line 743 then overwrites the slack
entry with `-sum(p[1:])`. -/
def sub_network_lpf (net : LpfNetwork) (buses_o : List String) :
    List (String × ℚ) :=
  let p := buses_o.map (fun b => (b, injection net b))
  match p with
  | [] => []
  | (slack, _) :: rest => (slack, -((rest.map Prod.snd).sum)) :: rest

/-! ### Storage state-of-charge constraints (opf.py, lines 202-242)

LOPF model variables are represented symbolically; a linear constraint is a
list of (variable, coefficient) terms plus a constant, equated to zero.
Snapshot weightings (elapsed hours) are modelled as natural numbers so that
the standing-loss factor `(1-standing_loss)**elapsed_hours` is an exact
rational power; the claims checked here do not depend on that exponent. -/

/-- LOPF model variables appearing in the storage constraints. -/
inductive LVar where
  | soc : String → String → LVar
  | store : String → String → LVar
  | dispatch : String → String → LVar
  deriving DecidableEq, Repr

/-- A linear expression: terms plus a constant. -/
structure LinExpr where
  terms : List (LVar × ℚ)
  const : ℚ
  deriving DecidableEq, Repr

/-- A storage unit row as read by define_storage_variables_constraints.
The user series state_of_charge maps a snapshot to `none` for NaN (free)
or `some v` for a user-fixed value. -/
structure StorageUnit where
  name : String
  state_of_charge_initial : ℚ
  state_of_charge : String → Option ℚ
  inflow : String → ℚ
  efficiency_store : ℚ
  efficiency_dispatch : ℚ
  standing_loss : ℚ

/-- opf.py lines 202-227, `soc_constraint`: the left-hand side of the SOC
recurrence for storage unit `su` at snapshot `t` (the rule returns
`LHS == 0`).  `weightings` is network.snapshot_weightings. -/
def soc_constraint_lhs (weightings : String → ℕ) (snapshots : List String)
    (su : StorageUnit) (t : String) : LinExpr :=
  let i := snapshots.indexOf t
  let w := weightings t
  let previous : List (LVar × ℚ) × ℚ :=
    if i = 0 then
      ([], (1 - su.standing_loss) ^ w * su.state_of_charge_initial)
    else
      ([(LVar.soc su.name ((snapshots.get? (i - 1)).getD ""),
         (1 - su.standing_loss) ^ w)], 0)
  let socTerm : List (LVar × ℚ) × ℚ :=
    match su.state_of_charge t with
    | none => ([(LVar.soc su.name t, -1)], 0)
    | some v => ([], -v)
  { terms := previous.1
      ++ [(LVar.store su.name t, su.efficiency_store * (w : ℚ)),
          (LVar.dispatch su.name t, -((1 / su.efficiency_dispatch) * (w : ℚ)))]
      ++ socTerm.1
    const := previous.2 + su.inflow t * (w : ℚ) + socTerm.2 }

/-- opf.py lines 233-242, `soc_constraint_fixed`: `none` models
Constraint.Feasible (no constraint); otherwise the equality
state_of_charge[su,t] = v. -/
def soc_constraint_fixed (su : StorageUnit) (t : String) :
    Option (LVar × ℚ) :=
  match su.state_of_charge t with
  | none => none
  | some v => some (LVar.soc su.name t, v)

/-! ### Exact complex numbers over ℚ (for calculate_Y)

numpy complex arithmetic is embedded as pairs of rationals with the usual
componentwise formulas; complex division is multiplication by the conjugate
over the squared modulus, and the inverse of zero is zero. -/

/-- A complex number with rational real and imaginary parts. -/
@[ext]
structure CQ where
  re : ℚ
  im : ℚ
  deriving DecidableEq, Repr

namespace CQ

instance : Zero CQ := ⟨⟨0, 0⟩⟩

instance : One CQ := ⟨⟨1, 0⟩⟩

instance : Add CQ := ⟨fun z w => ⟨z.re + w.re, z.im + w.im⟩⟩

instance : Neg CQ := ⟨fun z => ⟨-z.re, -z.im⟩⟩

instance : Sub CQ := ⟨fun z w => ⟨z.re - w.re, z.im - w.im⟩⟩

instance : Mul CQ :=
  ⟨fun z w => ⟨z.re * w.re - z.im * w.im, z.re * w.im + z.im * w.re⟩⟩

/-- The complex conjugate. -/
def conj (z : CQ) : CQ := ⟨z.re, -z.im⟩

/-- The squared modulus. -/
def normSq (z : CQ) : ℚ := z.re * z.re + z.im * z.im

instance : Inv CQ := ⟨fun z => ⟨z.re / normSq z, -z.im / normSq z⟩⟩

instance : Div CQ := ⟨fun z w => z * w⁻¹⟩

/-- The embedding of a real (rational) scalar. -/
def ofRat (q : ℚ) : CQ := ⟨q, 0⟩

instance : AddCommMonoid CQ where
  add_assoc a b c := by
    refine CQ.ext ?_ ?_
    · show a.re + b.re + c.re = a.re + (b.re + c.re)
      ring
    · show a.im + b.im + c.im = a.im + (b.im + c.im)
      ring
  zero_add a := by
    refine CQ.ext ?_ ?_
    · show (0 : ℚ) + a.re = a.re
      ring
    · show (0 : ℚ) + a.im = a.im
      ring
  add_zero a := by
    refine CQ.ext ?_ ?_
    · show a.re + (0 : ℚ) = a.re
      ring
    · show a.im + (0 : ℚ) = a.im
      ring
  add_comm a b := by
    refine CQ.ext ?_ ?_
    · show a.re + b.re = b.re + a.re
      ring
    · show a.im + b.im = b.im + a.im
      ring
  nsmul := nsmulRec

instance : Monoid CQ where
  mul_assoc a b c := by
    refine CQ.ext ?_ ?_
    · show (a.re * b.re - a.im * b.im) * c.re -
          (a.re * b.im + a.im * b.re) * c.im =
        a.re * (b.re * c.re - b.im * c.im) -
          a.im * (b.re * c.im + b.im * c.re)
      ring
    · show (a.re * b.re - a.im * b.im) * c.im +
          (a.re * b.im + a.im * b.re) * c.re =
        a.re * (b.re * c.im + b.im * c.re) +
          a.im * (b.re * c.re - b.im * c.im)
      ring
  one_mul a := by
    refine CQ.ext ?_ ?_
    · show (1 : ℚ) * a.re - 0 * a.im = a.re
      ring
    · show (1 : ℚ) * a.im + 0 * a.re = a.im
      ring
  mul_one a := by
    refine CQ.ext ?_ ?_
    · show a.re * 1 - a.im * 0 = a.re
      ring
    · show a.re * 0 + a.im * 1 = a.im
      ring
  npow := npowRec

end CQ

/-! ### Admittance matrix assembly (pf.py, calculate_Y)

Branch endpoints are the dense integer positions of the buses in the ordered
bus table buses_o (the join of pf.py lines 532-535).  The function
`cis` stands for the transcendental `theta : exp(1j * theta * pi / 180)` of
line 520; it is an arbitrary parameter applied by code and specification to
the same argument, so nothing about its values is assumed. -/

/-- A passive branch row as read by calculate_Y: per-unit impedances, the
optional transformer columns (NaN as `none`), and endpoint positions. -/
structure BranchY where
  r_pu : ℚ
  x_pu : ℚ
  g_pu : ℚ
  b_pu : ℚ
  tap_ratio : Option ℚ
  phase_shift : Option ℚ
  bus0 : ℕ
  bus1 : ℕ
  deriving DecidableEq, Repr

namespace CalcY

/-- pf.py line 511: `y_se = 1/(r_pu + 1j x_pu)`. -/
def y_se (br : BranchY) : CQ := 1 / ⟨br.r_pu, br.x_pu⟩

/-- pf.py line 513: `y_sh = g_pu + 1j b_pu`. -/
def y_sh (br : BranchY) : CQ := ⟨br.g_pu, br.b_pu⟩

/-- pf.py lines 515-518: `tau = tap_ratio.fillna(1)` then `tau[tau==0] = 1`. -/
def tau (br : BranchY) : ℚ :=
  let t := br.tap_ratio.getD 1
  if t = 0 then 1 else t

/-- pf.py line 520: `exp(1j * phase_shift.fillna(0) * pi / 180)`. -/
def phase (cis : ℚ → CQ) (br : BranchY) : CQ :=
  cis (br.phase_shift.getD 0)

/-- pf.py line 523: `Y11 = y_se + 0.5 * y_sh`. -/
def Y11 (br : BranchY) : CQ := y_se br + CQ.ofRat (1 / 2) * y_sh br

/-- pf.py line 524: `Y01 = -y_se / tau / phase_shift`. -/
def Y01 (cis : ℚ → CQ) (br : BranchY) : CQ :=
  -y_se br / CQ.ofRat (tau br) / phase cis br

/-- pf.py line 525: `Y10 = -y_se / tau / conj(phase_shift)`. -/
def Y10 (cis : ℚ → CQ) (br : BranchY) : CQ :=
  -y_se br / CQ.ofRat (tau br) / (phase cis br).conj

/-- pf.py line 526: `Y00 = Y11 / tau**2`. -/
def Y00 (br : BranchY) : CQ := Y11 br / CQ.ofRat (tau br) ^ 2

/-- pf.py line 544: row of the sparse Y0 matrix, Y00 summed at column bus0
and Y01 at column bus1 (csr_matrix sums duplicate entries). -/
def Y0row (cis : ℚ → CQ) (br : BranchY) (j : ℕ) : CQ :=
  (if br.bus0 = j then Y00 br else 0) + (if br.bus1 = j then Y01 cis br else 0)

/-- pf.py line 545: row of the sparse Y1 matrix, Y10 at bus0, Y11 at bus1. -/
def Y1row (cis : ℚ → CQ) (br : BranchY) (j : ℕ) : CQ :=
  (if br.bus0 = j then Y10 cis br else 0) + (if br.bus1 = j then Y11 br else 0)

/-- pf.py line 538: row of the incidence matrix C0 (ones at column bus0). -/
def C0row (br : BranchY) (i : ℕ) : ℚ := if br.bus0 = i then 1 else 0

/-- pf.py line 539: row of the incidence matrix C1 (ones at column bus1). -/
def C1row (br : BranchY) (i : ℕ) : ℚ := if br.bus1 = i then 1 else 0

/-- pf.py line 529: the summed shunt admittance attached to bus `i`;
`shunts` lists (bus position, g_pu, b_pu) of every shunt impedance. -/
def Y_sh_bus (shunts : List (ℕ × ℚ × ℚ)) (i : ℕ) : CQ :=
  ((shunts.filter (fun s => s.1 = i)).map
    (fun s => (⟨s.2.1, s.2.2⟩ : CQ))).sum

/-- pf.py lines 548-549: entry (i,j) of
`Y = C0.T * Y0 + C1.T * Y1 + diag(bus shunts)`. -/
def Y (cis : ℚ → CQ) (branches : List BranchY) (shunts : List (ℕ × ℚ × ℚ))
    (i j : ℕ) : CQ :=
  (branches.map (fun br => CQ.ofRat (C0row br i) * Y0row cis br j)).sum
  + (branches.map (fun br => CQ.ofRat (C1row br i) * Y1row cis br j)).sum
  + (if i = j then Y_sh_bus shunts i else 0)

/-- Modelled from the claim text of C8 (spec section 4.3), independently of
the code path: per branch y_se = 1/(r_pu + j x_pu), y_sh = g_pu + j b_pu,
tau = tap_ratio with missing or zero replaced by 1, phi = cis phase_shift
(missing as 0), Y11 = y_se + half y_sh, Y00 = Y11 / tau^2,
Y01 = -y_se/(tau phi), Y10 = -y_se/(tau conj phi), assembled as
C0^T Y0 + C1^T Y1 plus the diagonal of summed bus shunt admittances. -/
def Y_spec (cis : ℚ → CQ) (branches : List BranchY)
    (shunts : List (ℕ × ℚ × ℚ)) (i j : ℕ) : CQ :=
  (branches.map (fun br =>
    let yse : CQ := 1 / ⟨br.r_pu, br.x_pu⟩
    let ysh : CQ := ⟨br.g_pu, br.b_pu⟩
    let t : ℚ := match br.tap_ratio with
      | none => 1
      | some v => if v = 0 then 1 else v
    let phi : CQ := cis (match br.phase_shift with
      | none => 0
      | some d => d)
    let y11 : CQ := yse + CQ.ofRat (1 / 2) * ysh
    let y00 : CQ := y11 / CQ.ofRat t ^ 2
    let y01 : CQ := -yse / (CQ.ofRat t * phi)
    let y10 : CQ := -yse / (CQ.ofRat t * phi.conj)
    CQ.ofRat (if br.bus0 = i then 1 else 0) *
        ((if br.bus0 = j then y00 else 0) + (if br.bus1 = j then y01 else 0))
      + CQ.ofRat (if br.bus1 = i then 1 else 0) *
        ((if br.bus0 = j then y10 else 0) +
          (if br.bus1 = j then y11 else 0)))).sum
  + (if i = j then Y_sh_bus shunts i else 0)

end CalcY

/-! ### Controllable branches (pf.py lines 68-72 and 311-315, opf.py 491-493) -/

/-- A converter or transport link row: set point and flow columns at the
snapshot being solved. -/
structure CB where
  name : String
  p_set : ℚ
  p0 : ℚ
  p1 : ℚ
  deriving DecidableEq, Repr

/-- pf.py lines 68-72 (network_pf): converters and transport links get
p0 = p_set and p1 = -p_set at the snapshot. -/
def network_pf_controllables (cbs : List CB) : List CB :=
  cbs.map fun cb => { cb with p0 := cb.p_set, p1 := -cb.p_set }

/-- pf.py lines 311-315 (network_lpf): identical treatment. -/
def network_lpf_controllables (cbs : List CB) : List CB :=
  cbs.map fun cb => { cb with p0 := cb.p_set, p1 := -cb.p_set }

/-- opf.py lines 491-493 (extract_optimisation_results): p0 is the solver
value of controllable_branch_p for the branch at the snapshot, p1 = -p0.
`sol` maps a branch name to its optimised flow. -/
def extract_controllables (sol : String → ℚ) (cbs : List CB) : List CB :=
  cbs.map fun cb => { cb with p0 := sol cb.name, p1 := -(sol cb.name) }

/-! ### Adding components (components.py, Network.add) -/

/-- A component row: the simple descriptor columns as an association list
from attribute name to value. -/
abbrev Row := List (String × ℚ)

/-- A component table: rows keyed by component name, in insertion order. -/
abbrev Table := List (String × Row)

/-- A component class as Network.add sees it: its table name, its declared
simple descriptor columns, and their defaults. -/
structure CompClass where
  list_name : String
  attrs : List String
  defaults : String → ℚ

/-- The default row of a class: every declared column at its default
(components.py lines 513-517). -/
def defaultRow (cls : CompClass) : Row :=
  cls.attrs.map (fun a => (a, cls.defaults a))

/-- `setattr(obj, k, v)` for a descriptor attribute: updates the column k in
the row; a keyword that is no declared column becomes a plain instance
attribute and leaves the table row unchanged. -/
def setRowAttr (attrs : List String) (r : Row) (k : String) (v : ℚ) : Row :=
  if k ∈ attrs then r.map (fun p => if p.1 = k then (p.1, v) else p) else r

/-- components.py lines 493-527, `Network.add`: the network is its tables
keyed by list_name.  If the name is already in the index of the class table,
print and return with nothing changed; otherwise append a row of defaults
and apply the keyword attributes, returning the new object. -/
def network_add (cls : CompClass) (tables : List (String × Table))
    (nm : String) (kwargs : List (String × ℚ)) :
    Option (String × Row) × List (String × Table) :=
  let tbl := ((tables.find? (fun p => p.1 = cls.list_name)).map Prod.snd).getD []
  if nm ∈ tbl.map Prod.fst then
    (none, tables)
  else
    let row := kwargs.foldl (fun r kv => setRowAttr cls.attrs r kv.1 kv.2)
      (defaultRow cls)
    (some (nm, row),
      tables.map (fun p =>
        if p.1 = cls.list_name then (p.1, p.2 ++ [(nm, row)]) else p))

/-! ### The LOPF driver (opf.py, network_lopf)

The model covers what network_lopf does to the network around the solve:
mark topology and dependent values fresh, run find_slack_bus on every
sub-network (which mutates generator controls, pf.py lines 344 and 352),
store the built model and the solver results, and only when the solver
reports status ok with termination condition optimal run
extract_optimisation_results.  The LP solver itself is external: its
outcome (status, termination condition) and its variable values `sol`
are inputs. -/

/-- Per-snapshot result series of the components the optimisation writes:
for each component name, its value at each snapshot. -/
abbrev Series := List (String × List ℚ)

/-- The result series that extract_optimisation_results writes
(opf.py lines 464-508). -/
structure SeriesState where
  generators_p : Series
  storage_units_p : Series
  storage_units_state_of_charge : Series
  loads_p : Series
  buses_p : Series
  buses_v_ang : Series
  buses_marginal_price : Series
  branches_p0 : Series
  branches_p1 : Series
  deriving DecidableEq, Repr

/-- The network state network_lopf touches. -/
structure OptNetwork where
  generators : List Generator
  sub_networks : List (List String)
  series : SeriesState
  generators_p_nom : List (String × ℚ)
  branches_s_nom : List (String × ℚ)
  model_built : Bool
  results : Option (String × String)
  topology_determined : Bool
  dependent_values_calculated : Bool
  deriving DecidableEq, Repr

/-- The control mutations of find_slack_bus (pf.py lines 340-352) applied to
the full generator table for one sub-network whose buses are `snBuses`:
promote the first generator when no slack exists, demote the extra slacks
when several exist.  The selected slack ids, stored on the sub-network
object, are not used further by network_lopf. -/
def apply_find_slack_bus (gens : List Generator) (snBuses : List String) :
    List Generator :=
  match gens.filter (fun g => g.bus ∈ snBuses) with
  | [] => gens
  | g0 :: gs =>
    match (g0 :: gs).filter (fun g => g.control = "Slack") with
    | [] => setControl [g0.name] "Slack" gens
    | [_] => gens
    | _ :: s2 :: rest => setControl ((s2 :: rest).map (fun g => g.name)) "PV" gens

/-- A coarse model of one series being overwritten from solver values
(extract_optimisation_results assigns every entry at every snapshot). -/
def overwriteSeries (sol : String → ℚ) (tag : String) (s : Series) : Series :=
  s.map (fun e => (e.1, e.2.map (fun _ => sol (tag ++ "." ++ e.1))))

/-- opf.py lines 464-521, extract_optimisation_results, at series
granularity: every result series and the extendable capacities are
overwritten from the solved model. -/
def extract_optimisation_results (sol : String → ℚ) (s : SeriesState) :
    SeriesState :=
  { generators_p := overwriteSeries sol "generator_p" s.generators_p
    storage_units_p := overwriteSeries sol "storage_p" s.storage_units_p
    storage_units_state_of_charge :=
      overwriteSeries sol "state_of_charge" s.storage_units_state_of_charge
    loads_p := overwriteSeries sol "load_p" s.loads_p
    buses_p := overwriteSeries sol "bus_p" s.buses_p
    buses_v_ang := overwriteSeries sol "v_ang" s.buses_v_ang
    buses_marginal_price :=
      overwriteSeries sol "marginal_price" s.buses_marginal_price
    branches_p0 := overwriteSeries sol "p0" s.branches_p0
    branches_p1 := overwriteSeries sol "p1" s.branches_p1 }

/-- opf.py lines 512-521: extendable capacities written back. -/
def extract_capacities (sol : String → ℚ) (caps : List (String × ℚ)) :
    List (String × ℚ) :=
  caps.map (fun c => (c.1, sol c.1))

/-- opf.py lines 526-593, `network_lopf`: `outcome` is
(results["Solver"][0] status, termination condition) from the external LP
solver, `sol` its variable values. -/
def network_lopf (net : OptNetwork) (outcome : String × String)
    (sol : String → ℚ) : OptNetwork :=
  let gens := net.sub_networks.foldl apply_find_slack_bus net.generators
  let ok := outcome.1 = "ok" ∧ outcome.2 = "optimal"
  { net with
    topology_determined := true
    dependent_values_calculated := true
    generators := gens
    model_built := true
    results := some outcome
    series := if ok then extract_optimisation_results sol net.series
      else net.series
    generators_p_nom := if ok then extract_capacities sol net.generators_p_nom
      else net.generators_p_nom
    branches_s_nom := if ok then extract_capacities sol net.branches_s_nom
      else net.branches_s_nom }

/-! ### Formulation selection (opf.py lines 559-569, components.py line 399)

Python attribute access is modelled exactly: the Network class body declares
`dc_opf_formulation = "ptdf"` (components.py lines 398-399, with the comment
that it can only be "angles" or "ptdf") but declares no `lopf_formulation`,
so on a network left at the class defaults the read
`network.lopf_formulation` at opf.py line 559 raises AttributeError.
An instance attribute set by the user through a constructor keyword is the
`some` case. -/

/-- The two Network attributes involved: the declared class option and the
undeclared name the code reads (`none` = attribute absent, AttributeError
on read). -/
structure NetAttrs where
  dc_opf_formulation : String
  lopf_formulation : Option String
  deriving DecidableEq, Repr

/-- A Network instance at the class defaults of components.py. -/
def networkDefaults : NetAttrs :=
  { dc_opf_formulation := "ptdf", lopf_formulation := none }

/-- Which model components network_lopf declares for the passive branches. -/
structure FlowBuild where
  voltage_angle_variables : Bool
  angle_flow_expressions : Bool
  ptdf_flow_expressions : Bool
  nodal_balance_per_bus : Bool
  balance_per_sub_network : Bool
  deriving DecidableEq, Repr

/-- opf.py lines 559-569: the formulation dispatch of network_lopf.  Reads
`network.lopf_formulation`; when the attribute is absent the call dies with
AttributeError before declaring any flow formulation. -/
def network_lopf_flow_build (n : NetAttrs) : Except String FlowBuild :=
  match n.lopf_formulation with
  | none =>
    Except.error "AttributeError: Network object has no attribute lopf_formulation"
  | some f =>
    Except.ok
      { voltage_angle_variables := f = "angles"
        angle_flow_expressions := f = "angles"
        ptdf_flow_expressions := f = "ptdf"
        nodal_balance_per_bus := f = "angles"
        balance_per_sub_network := f = "ptdf" }

/-! ### Concrete inputs used by the witness and counterexample theorems -/

/-- A generator already marked Slack. -/
def exGenA : Generator := { name := "g1", control := "Slack", bus := "b1" }

/-- A second generator also marked Slack. -/
def exGenB : Generator := { name := "g2", control := "Slack", bus := "b2" }

/-- A PQ generator on bus b1. -/
def exGenPQ : Generator := { name := "g1", control := "PQ", bus := "b1" }

/-- One-generator, one-bus network state before a network_lopf call. -/
def exOptNet : OptNetwork :=
  { generators := [exGenPQ]
    sub_networks := [["b1"]]
    series :=
      { generators_p := [("g1", [0])]
        storage_units_p := []
        storage_units_state_of_charge := []
        loads_p := [("d1", [0])]
        buses_p := [("b1", [0])]
        buses_v_ang := [("b1", [0])]
        buses_marginal_price := [("b1", [0])]
        branches_p0 := []
        branches_p1 := [] }
    generators_p_nom := [("g1", 100)]
    branches_s_nom := []
    model_built := false
    results := none
    topology_determined := true
    dependent_values_calculated := true }

/-- A storage unit whose state of charge is user-fixed to 5 at snapshot t1
and free (NaN) at snapshot t0. -/
def exSU : StorageUnit :=
  { name := "s1"
    state_of_charge_initial := 2
    state_of_charge := fun s => if s = "t1" then some 5 else none
    inflow := fun _ => 0
    efficiency_store := 9 / 10
    efficiency_dispatch := 9 / 10
    standing_loss := 0 }

/-- A two-generators-one-load linear power flow network. -/
def exLpfNet : LpfNetwork :=
  { generators :=
      [{ name := "g1", bus := "b1", sign := 1, p_set := 30 },
       { name := "g2", bus := "b2", sign := 1, p_set := 50 }]
    loads := [{ name := "d1", bus := "b2", sign := -1, p_set := 70 }]
    shunt_impedances := []
    links := [{ name := "c1", bus0 := "b1", bus1 := "b3", p0 := 10, p1 := -10 }] }

/-- A tiny component class for Network.add. -/
def exCls : CompClass :=
  { list_name := "generators"
    attrs := ["p_nom", "p_set"]
    defaults := fun _ => 0 }

/-- Network tables holding one generator named g1. -/
def exTables : List (String × Table) :=
  [("generators", [("g1", [("p_nom", 10), ("p_set", 0)])]),
   ("loads", [])]

/-! ## Theorems -/

/-! ### Complex arithmetic lemmas for calculate_Y -/

namespace CQ

theorem normSq_mul (z w : CQ) : normSq (z * w) = normSq z * normSq w := by
  show (z.re * w.re - z.im * w.im) * (z.re * w.re - z.im * w.im) +
      (z.re * w.im + z.im * w.re) * (z.re * w.im + z.im * w.re) =
    (z.re * z.re + z.im * z.im) * (w.re * w.re + w.im * w.im)
  ring

/-- Complex inversion is multiplicative (also at zero, where both sides are
zero because rational division by zero is zero). -/
theorem mul_inv_cq (z w : CQ) : (z * w)⁻¹ = z⁻¹ * w⁻¹ := by
  refine CQ.ext ?_ ?_
  · show (z * w).re / normSq (z * w) =
      z.re / normSq z * (w.re / normSq w) -
        -z.im / normSq z * (-w.im / normSq w)
    rw [normSq_mul]
    show (z.re * w.re - z.im * w.im) / (normSq z * normSq w) =
      z.re / normSq z * (w.re / normSq w) -
        -z.im / normSq z * (-w.im / normSq w)
    rw [div_mul_div_comm, div_mul_div_comm, div_sub_div_same]
    congr 1
    ring
  · show -(z * w).im / normSq (z * w) =
      z.re / normSq z * (-w.im / normSq w) +
        -z.im / normSq z * (w.re / normSq w)
    rw [normSq_mul]
    show -(z.re * w.im + z.im * w.re) / (normSq z * normSq w) =
      z.re / normSq z * (-w.im / normSq w) +
        -z.im / normSq z * (w.re / normSq w)
    rw [div_mul_div_comm, div_mul_div_comm, div_add_div_same, neg_div]
    ring_nf

/-- Division two at a time agrees with division by the product. -/
theorem div_div_cq (a b c : CQ) : a / b / c = a / (b * c) := by
  show a * b⁻¹ * c⁻¹ = a * (b * c)⁻¹
  rw [mul_inv_cq, mul_assoc]

end CQ

/-! ### Claim C1 -/

/-- Claim C1 (code bug evidence).  The claim says network_lopf selects the
passive-branch flow formulation by the dc_opf_formulation option, default
"ptdf".  On a network at the class defaults that option is indeed "ptdf",
yet the dispatch of opf.py lines 559-569 reads the undefined attribute
lopf_formulation and dies with AttributeError before declaring any flow
formulation, and changing dc_opf_formulation (for example to "angles")
leaves the outcome untouched: the option never selects anything. -/
theorem C1_formulation_attribute_error :
    networkDefaults.dc_opf_formulation = "ptdf"
  ∧ network_lopf_flow_build networkDefaults =
      Except.error
        "AttributeError: Network object has no attribute lopf_formulation"
  ∧ network_lopf_flow_build
      { networkDefaults with dc_opf_formulation := "angles" } =
      network_lopf_flow_build networkDefaults
  ∧ network_lopf_flow_build { networkDefaults with lopf_formulation := some "angles" } =
      Except.ok
        { voltage_angle_variables := true
          angle_flow_expressions := true
          ptdf_flow_expressions := false
          nodal_balance_per_bus := true
          balance_per_sub_network := false } := by
  exact ⟨rfl, rfl, rfl, rfl⟩

/-! ### Claim C3 -/

/-- Claim C3: find_slack_bus selects the slack as the claim states.  With no
generators the slack generator is empty and the slack bus is the first bus
of the index; with no generator in control Slack the first generator is
promoted and chosen; with exactly one it is chosen with no mutation; with
several the first is kept and the others are demoted to PV; and the slack
bus is the bus of the chosen generator. -/
theorem C3_find_slack_bus_selection (gens : List Generator)
    (buses : List String) (hgb : gens = [] → buses ≠ []) :
    (gens = [] →
      find_slack_bus gens buses = some ("", buses.headD "", gens))
  ∧ (∀ g0 gs, gens = g0 :: gs →
      gens.filter (fun g => g.control = "Slack") = [] →
      find_slack_bus gens buses =
        some (g0.name, busOf gens g0.name, setControl [g0.name] "Slack" gens))
  ∧ (∀ s, gens.filter (fun g => g.control = "Slack") = [s] →
      find_slack_bus gens buses = some (s.name, busOf gens s.name, gens))
  ∧ (∀ s s2 rest,
      gens.filter (fun g => g.control = "Slack") = s :: s2 :: rest →
      find_slack_bus gens buses =
        some (s.name, busOf gens s.name,
          setControl ((s2 :: rest).map (fun g => g.name)) "PV" gens)) := by
  refine ⟨?_, ?_, ?_, ?_⟩
  · intro h
    subst h
    cases buses with
    | nil => exact absurd rfl (hgb rfl)
    | cons b bs => rfl
  · intro g0 gs hg hf
    subst hg
    simp only [find_slack_bus, hf]
  · intro s hf
    cases gens with
    | nil => simp at hf
    | cons g0 gs => simp only [find_slack_bus, hf]
  · intro s s2 rest hf
    cases gens with
    | nil => simp at hf
    | cons g0 gs => simp only [find_slack_bus, hf]

/-- Witness for C3 at a concrete input: two generators both marked Slack;
the first is chosen, the second demoted to PV. -/
theorem C3_find_slack_bus_selection_witness :
    find_slack_bus [exGenA, exGenB] ["b0"] =
      some ("g1", "b1", setControl ["g2"] "PV" [exGenA, exGenB]) :=
  (C3_find_slack_bus_selection [exGenA, exGenB] ["b0"]
      (by decide)).2.2.2 exGenA exGenB [] (by decide)

/-! ### Claim C4 -/

/-- Loop invariant of nrLoop: the loop performs some number m of Newton
updates bounded by the remaining budget, returns the m-th iterate with the
accumulated counter and its residual, stops only on success or exhaustion,
and every earlier iterate had residual above tolerance. -/
theorem nrLoop_spec {A B J : Type} [Sub A] (f : A → B) (dfdx : A → J)
    (spsolve : J → B → A) (fnorm : B → ℚ) (x_tol : ℚ) :
    ∀ (fuel : ℕ) (guess : A) (n_iter : ℕ),
      ∃ m, m ≤ fuel ∧
        nrLoop f dfdx spsolve fnorm x_tol fuel guess n_iter =
          ((nrStep f dfdx spsolve)^[m] guess, n_iter + m,
            fnorm (f ((nrStep f dfdx spsolve)^[m] guess)))
        ∧ (fnorm (f ((nrStep f dfdx spsolve)^[m] guess)) ≤ x_tol ∨ m = fuel)
        ∧ ∀ k, k < m →
            x_tol < fnorm (f ((nrStep f dfdx spsolve)^[k] guess)) := by
  intro fuel
  induction fuel with
  | zero =>
    intro guess n_iter
    exact ⟨0, le_rfl, rfl, Or.inr rfl, fun k hk => absurd hk (Nat.not_lt_zero k)⟩
  | succ fuel ih =>
    intro guess n_iter
    by_cases h : x_tol < fnorm (f guess)
    · obtain ⟨m, hm, heq, hstop, hmin⟩ :=
        ih (nrStep f dfdx spsolve guess) (n_iter + 1)
      refine ⟨m + 1, Nat.succ_le_succ hm, ?_, ?_, ?_⟩
      · show nrLoop f dfdx spsolve fnorm x_tol (fuel + 1) guess n_iter = _
        have hn : n_iter + 1 + m = n_iter + (m + 1) := by omega
        rw [nrLoop, if_pos h, heq, Function.iterate_succ_apply, hn]
      · rw [Function.iterate_succ_apply]
        rcases hstop with hs | hs
        · exact Or.inl hs
        · exact Or.inr (by omega)
      · intro k hk
        cases k with
        | zero => simpa using h
        | succ k =>
          rw [Function.iterate_succ_apply]
          exact hmin k (Nat.lt_of_succ_lt_succ hk)
    · refine ⟨0, Nat.zero_le _, ?_, Or.inl (le_of_not_lt h), fun k hk =>
        absurd hk (Nat.not_lt_zero k)⟩
      show nrLoop f dfdx spsolve fnorm x_tol (fuel + 1) guess n_iter = _
      rw [nrLoop, if_neg h]
      rfl

/-- Claim C4: newton_raphson_sparse performs at most lim_iter Newton
updates; it returns the n-th iterate of the Newton step from the initial
guess together with the update count n and the residual norm of the
returned iterate; it stops only once the residual is within x_tol or the
cap is reached, and every iterate before the final one had residual above
x_tol (so it stops as soon as the tolerance is met). -/
theorem C4_newton_raphson_sparse_behaviour {A B J : Type} [Sub A]
    (f : A → B) (dfdx : A → J) (spsolve : J → B → A) (fnorm : B → ℚ)
    (x_tol : ℚ) (lim_iter : ℕ) (guess : A) :
    ∃ x n d,
      newton_raphson_sparse f dfdx spsolve fnorm x_tol lim_iter guess =
        (x, n, d)
      ∧ n ≤ lim_iter
      ∧ x = (nrStep f dfdx spsolve)^[n] guess
      ∧ d = fnorm (f x)
      ∧ (d ≤ x_tol ∨ n = lim_iter)
      ∧ ∀ k, k < n →
          x_tol < fnorm (f ((nrStep f dfdx spsolve)^[k] guess)) := by
  obtain ⟨m, hm, heq, hstop, hmin⟩ :=
    nrLoop_spec f dfdx spsolve fnorm x_tol lim_iter guess 0
  refine ⟨(nrStep f dfdx spsolve)^[m] guess, m,
    fnorm (f ((nrStep f dfdx spsolve)^[m] guess)), ?_, hm, rfl, rfl, hstop,
    hmin⟩
  show nrLoop f dfdx spsolve fnorm x_tol lim_iter guess 0 = _
  rw [heq, Nat.zero_add]

/-! ### Claim C5 -/

/-- Claim C5: after sub_network_lpf the slack bus (the head of buses_o)
carries minus the sum of the p values of the other buses, which keep their
computed injections, so bus.p sums to zero over the sub-network. -/
theorem C5_sub_network_lpf_balance (net : LpfNetwork)
    (buses_o : List String) (h : buses_o ≠ []) :
    (((sub_network_lpf net buses_o).map Prod.snd).sum = 0)
  ∧ ∀ b0 bs, buses_o = b0 :: bs →
      sub_network_lpf net buses_o =
        (b0, -((bs.map (fun b => injection net b)).sum)) ::
          bs.map (fun b => (b, injection net b)) := by
  cases buses_o with
  | nil => exact absurd rfl h
  | cons b0 bs =>
    constructor
    · show ((sub_network_lpf net (b0 :: bs)).map Prod.snd).sum = 0
      simp only [sub_network_lpf, List.map_cons, List.map_map]
      simp [Function.comp_def]
    · intro c0 cs hc
      obtain ⟨rfl, rfl⟩ : b0 = c0 ∧ bs = cs := by
        exact ⟨(List.cons.injEq _ _ _ _ ▸ hc).1, (List.cons.injEq _ _ _ _ ▸ hc).2⟩
      simp only [sub_network_lpf, List.map_cons, List.map_map]
      simp [Function.comp_def]

/-- Witness for C5 at a concrete network: the slack bus absorbs the
imbalance of the other buses and the total is zero. -/
theorem C5_sub_network_lpf_balance_witness :
    ((sub_network_lpf exLpfNet ["b1", "b2", "b3"]).map Prod.snd).sum = 0 :=
  (C5_sub_network_lpf_balance exLpfNet ["b1", "b2", "b3"] (by decide)).1

/-! ### Claim C6 -/

/-- Recomputing the dependent columns of a line row changes nothing: the
inputs (static impedances and bus reference) are untouched by the first
computation. -/
theorem lineDep_idem (bs : List PBus) (l : PLine) :
    lineDep bs (lineDep bs l) = lineDep bs l := rfl

/-- Recomputing the dependent columns of a transformer row changes
nothing. -/
theorem transformerDep_idem (t : PTransformer) :
    transformerDep (transformerDep t) = transformerDep t := rfl

/-- Recomputing the dependent columns of a shunt impedance row changes
nothing. -/
theorem shuntDep_idem (bs : List PBus) (s : PShunt) :
    shuntDep bs (shuntDep bs s) = shuntDep bs s := rfl

/-- Claim C6: calculate_dependent_values is idempotent; the second call
reproduces exactly the same x_pu, r_pu, g_pu, b_pu and copied v_nom
columns on lines, transformers and shunt impedances. -/
theorem C6_calculate_dependent_values_idempotent (n : PNetwork) :
    calculate_dependent_values (calculate_dependent_values n) =
      calculate_dependent_values n := by
  simp only [calculate_dependent_values, List.map_map]
  simp [Function.comp_def, lineDep_idem, transformerDep_idem, shuntDep_idem]

/-! ### Claim C7 -/

/-- On a duplicate-free snapshot list, the snapshot preceding t (as indexed
by the SOC recurrence) is not t itself. -/
theorem prev_snapshot_ne {snapshots : List String} {t : String}
    (ht : t ∈ snapshots) (hnd : snapshots.Nodup)
    (hi : snapshots.indexOf t ≠ 0) :
    (snapshots.get? (snapshots.indexOf t - 1)).getD "" ≠ t := by
  intro hEq
  have hlt : snapshots.indexOf t < snapshots.length :=
    List.indexOf_lt_length.mpr ht
  have hlt1 : snapshots.indexOf t - 1 < snapshots.length := by omega
  rw [List.get?_eq_getElem?, List.getElem?_eq_getElem hlt1] at hEq
  simp only [Option.getD_some] at hEq
  have hidx := List.indexOf_getElem hnd (snapshots.indexOf t - 1) hlt1
  rw [hEq] at hidx
  omega

/-- Claim C7: in the LOPF storage model, a user-supplied numeric
state_of_charge value is substituted into the recurrence (the soc variable
of (s,t) does not occur among its terms and the value enters the constant
with a minus sign) and a separate equality pins the variable to the value;
a NaN leaves the soc variable of (s,t) in the recurrence with coefficient
-1 and adds no equality. -/
theorem C7_soc_fixing (weightings : String → ℕ) (snapshots : List String)
    (su : StorageUnit) (t : String) (ht : t ∈ snapshots)
    (hnd : snapshots.Nodup) :
    (∀ v, su.state_of_charge t = some v →
      (∀ p ∈ (soc_constraint_lhs weightings snapshots su t).terms,
          p.1 ≠ LVar.soc su.name t)
      ∧ (soc_constraint_lhs weightings snapshots su t).const =
          (if snapshots.indexOf t = 0 then
            (1 - su.standing_loss) ^ weightings t *
              su.state_of_charge_initial
          else 0) + su.inflow t * (weightings t : ℚ) - v
      ∧ soc_constraint_fixed su t = some (LVar.soc su.name t, v))
  ∧ (su.state_of_charge t = none →
      (LVar.soc su.name t, -1) ∈
          (soc_constraint_lhs weightings snapshots su t).terms
      ∧ soc_constraint_fixed su t = none) := by
  constructor
  · intro v hv
    refine ⟨?_, ?_, ?_⟩
    · intro p hp
      by_cases hi : snapshots.indexOf t = 0
      · simp only [soc_constraint_lhs, hi, if_pos, hv, List.append_nil,
          List.nil_append, List.mem_cons, List.not_mem_nil, or_false,
          reduceIte] at hp
        rcases hp with rfl | rfl <;> simp
      · simp only [soc_constraint_lhs, hv, if_neg hi, List.append_nil,
          List.cons_append, List.nil_append, List.mem_cons,
          List.not_mem_nil, or_false] at hp
        rcases hp with rfl | rfl | rfl
        · simpa using prev_snapshot_ne ht hnd hi
        · simp
        · simp
    · by_cases hi : snapshots.indexOf t = 0 <;>
        simp [soc_constraint_lhs, hv, hi, sub_eq_add_neg]
    · simp [soc_constraint_fixed, hv]
  · intro hv
    constructor
    · by_cases hi : snapshots.indexOf t = 0 <;>
        simp [soc_constraint_lhs, hv, hi]
    · simp [soc_constraint_fixed, hv]

/-- Witness for C7 at a concrete storage unit over snapshots [t0, t1]: the
value 5 fixed at t1 yields the pinning equality, and the free NaN at t0
leaves the soc variable in the recurrence. -/
theorem C7_soc_fixing_witness :
    soc_constraint_fixed exSU "t1" = some (LVar.soc "s1" "t1", 5)
  ∧ (LVar.soc "s1" "t0", -1) ∈
      (soc_constraint_lhs (fun _ => 1) ["t0", "t1"] exSU "t0").terms := by
  constructor
  · exact ((C7_soc_fixing (fun _ => 1) ["t0", "t1"] exSU "t1" (by decide)
      (by decide)).1 5 (by decide)).2.2
  · exact ((C7_soc_fixing (fun _ => 1) ["t0", "t1"] exSU "t0" (by decide)
      (by decide)).2 (by decide)).1

/-! ### Claim C8 -/

/-- Two mapped sums over the same list merge into one sum of pointwise
sums. -/
theorem sum_map_add_cq {α : Type} (l : List α) (f g : α → CQ) :
    (l.map f).sum + (l.map g).sum = (l.map (fun a => f a + g a)).sum := by
  induction l with
  | nil => simp
  | cons a l ih =>
    simp only [List.map_cons, List.sum_cons]
    rw [add_add_add_comm, ih]

/-- The fillna-then-zero-catch of the code equals the specification
phrasing (missing or zero tap ratio replaced by one). -/
theorem tau_eq_match (br : BranchY) :
    CalcY.tau br = (match br.tap_ratio with
      | none => 1
      | some v => if v = 0 then 1 else v) := by
  cases htr : br.tap_ratio <;> simp [CalcY.tau, htr]

/-- The fillna(0) of the code equals the specification phrasing (missing
phase shift as zero). -/
theorem phase_getD_eq_match (o : Option ℚ) :
    o.getD 0 = (match o with | none => 0 | some d => d) := by
  cases o <;> rfl

/-- Claim C8: the admittance matrix assembled by calculate_Y equals, entry
by entry, the matrix described by the specification: per-branch
y_se = 1/(r_pu + j x_pu), y_sh = g_pu + j b_pu, tau = tap_ratio with
missing or zero replaced by 1, phi = exp(j phase_shift pi/180) with
missing phase_shift as 0, Y11 = y_se + y_sh/2, Y00 = Y11/tau^2,
Y01 = -y_se/(tau phi), Y10 = -y_se/(tau conj phi), assembled as
C0^T Y0 + C1^T Y1 plus the diagonal of summed bus shunt admittances. -/
theorem C8_calculate_Y_matches_spec (cis : ℚ → CQ) (branches : List BranchY)
    (shunts : List (ℕ × ℚ × ℚ)) (i j : ℕ) :
    CalcY.Y cis branches shunts i j =
      CalcY.Y_spec cis branches shunts i j := by
  unfold CalcY.Y CalcY.Y_spec
  rw [sum_map_add_cq]
  congr 1
  refine congrArg List.sum (List.map_congr_left ?_)
  intro br _
  simp only [CalcY.C0row, CalcY.C1row, CalcY.Y0row, CalcY.Y1row, CalcY.Y00,
    CalcY.Y01, CalcY.Y10, CalcY.Y11, CalcY.y_se, CalcY.y_sh, CalcY.phase,
    tau_eq_match br, phase_getD_eq_match, CQ.div_div_cq]

/-! ### Claim C9 -/

/-- Claim C9: controllable branches are lossless in every analysis.  After
network_pf and network_lpf every converter and transport link has
p1 = -p0 (both set from p_set), and after LOPF extraction p1 is minus the
optimised p0. -/
theorem C9_controllable_branches_lossless (cbs : List CB)
    (sol : String → ℚ) :
    (∀ cb ∈ network_pf_controllables cbs, cb.p1 = -cb.p0)
  ∧ (∀ cb ∈ network_lpf_controllables cbs, cb.p1 = -cb.p0)
  ∧ (∀ cb ∈ extract_controllables sol cbs, cb.p1 = -cb.p0) := by
  refine ⟨?_, ?_, ?_⟩ <;>
    · intro cb hcb
      simp only [network_pf_controllables, network_lpf_controllables,
        extract_controllables, List.mem_map] at hcb
      obtain ⟨c, _, rfl⟩ := hcb
      rfl

/-- Witness for C9 at a concrete branch list. -/
theorem C9_controllable_branches_lossless_witness :
    ∃ cb, cb ∈ network_pf_controllables
        [{ name := "c1", p_set := 7, p0 := 0, p1 := 0 }]
      ∧ cb.p1 = -cb.p0 :=
  ⟨{ name := "c1", p_set := 7, p0 := 7, p1 := -7 }, by decide,
    (C9_controllable_branches_lossless
        [{ name := "c1", p_set := 7, p0 := 0, p1 := 0 }] (fun _ => 0)).1
      { name := "c1", p_set := 7, p0 := 7, p1 := -7 } (by decide)⟩

/-! ### Claim C10 -/

/-- Claim C10: Network.add with a name already present in the class table
creates nothing, changes no table and returns no object; with a fresh name
it appends exactly one row initialised from the class defaults with the
keyword attributes applied, touching no other table. -/
theorem C10_network_add (cls : CompClass) (tables : List (String × Table))
    (nm : String) (kwargs : List (String × ℚ)) :
    (nm ∈ (((tables.find? (fun p => p.1 = cls.list_name)).map
        Prod.snd).getD []).map Prod.fst →
      network_add cls tables nm kwargs = (none, tables))
  ∧ (nm ∉ (((tables.find? (fun p => p.1 = cls.list_name)).map
        Prod.snd).getD []).map Prod.fst →
      network_add cls tables nm kwargs =
        (some (nm, kwargs.foldl
            (fun r kv => setRowAttr cls.attrs r kv.1 kv.2) (defaultRow cls)),
          tables.map (fun p =>
            if p.1 = cls.list_name then
              (p.1, p.2 ++ [(nm, kwargs.foldl
                (fun r kv => setRowAttr cls.attrs r kv.1 kv.2)
                (defaultRow cls))])
            else p))) := by
  constructor
  · intro h
    simp only [network_add, if_pos h]
  · intro h
    simp only [network_add, if_neg h]

/-- Witness for C10: adding the existing name g1 changes nothing; adding
the fresh name g2 appends one row of defaults with p_nom set to 3. -/
theorem C10_network_add_witness :
    network_add exCls exTables "g1" [("p_nom", 3)] = (none, exTables)
  ∧ network_add exCls exTables "g2" [("p_nom", 3)] =
      (some ("g2", [("p_nom", 3), ("p_set", 0)]),
        [("generators",
          [("g1", [("p_nom", 10), ("p_set", 0)]),
           ("g2", [("p_nom", 3), ("p_set", 0)])]),
         ("loads", [])]) := by
  constructor
  · exact (C10_network_add exCls exTables "g1" [("p_nom", 3)]).1 (by decide)
  · have h := (C10_network_add exCls exTables "g2" [("p_nom", 3)]).2
      (by decide)
    rw [h]
    rfl

/-! ### Claim C2 -/

/-- Counterexample to claim C2 as stated: a failed solve is claimed to
leave every network attribute unchanged, but network_lopf calls
find_slack_bus before solving, which promotes the only generator (control
PQ) of the one sub-network to control Slack, so the network differs from
its pre-call state even though the solver status is not ok. -/
theorem C2_counterexample_slack_promotion :
    network_lopf exOptNet ("aborted", "maxIterations") (fun _ => 0) ≠
      exOptNet := by
  intro h
  have hg : (network_lopf exOptNet ("aborted", "maxIterations")
      (fun _ => 0)).generators = exOptNet.generators := by rw [h]
  revert hg
  decide

/-- Claim C2 as amended: when the solver outcome is not (ok, optimal),
network_lopf extracts nothing, so every result series and the capacity
fields are exactly as before the call; the pre-solve preparation (slack
control mutation, topology and per-unit flags, the stored model and solver
results) may still change the network. -/
theorem C2_failure_leaves_results_untouched (net : OptNetwork)
    (outcome : String × String) (sol : String → ℚ)
    (h : outcome.1 ≠ "ok" ∨ outcome.2 ≠ "optimal") :
    (network_lopf net outcome sol).series = net.series
  ∧ (network_lopf net outcome sol).generators_p_nom = net.generators_p_nom
  ∧ (network_lopf net outcome sol).branches_s_nom = net.branches_s_nom := by
  have hcond : ¬(outcome.1 = "ok" ∧ outcome.2 = "optimal") := by
    rcases h with h1 | h2
    · exact fun hc => h1 hc.1
    · exact fun hc => h2 hc.2
  refine ⟨?_, ?_, ?_⟩ <;> simp [network_lopf, hcond]

/-- Witness for the amended C2 at a concrete network and failed solve. -/
theorem C2_failure_leaves_results_untouched_witness :
    (network_lopf exOptNet ("aborted", "maxIterations")
        (fun _ => 0)).series = exOptNet.series :=
  (C2_failure_leaves_results_untouched exOptNet ("aborted", "maxIterations")
    (fun _ => 0) (Or.inl (by decide))).1

end PyPSA
